import Mathlib

/-!
Verification of the retail sales analytics pipeline
(`retail_pipeline/extract_clean.py` and `retail_pipeline/load_database.py`).

The pipeline's core is shallowly embedded here:
* machine floats (pandas/numpy/SQLite REAL) are modelled by exact
  rationals `ℚ`; the concrete values appearing in the claims are exactly
  representable;
* a dataframe is a `List` of row structures; the columns that the cleaning
  and aggregation logic reads are carried as fields (date parsing and the
  calendar decomposition of dates are outside the embedded fragment: the
  `order_year` column is carried through as an already-derived integer);
* `np.where(cond, a, b)` is the pointwise conditional, `pd.cut` is the
  interval lookup `discount_bucket`, `DataFrame.drop_duplicates` is
  `dropDuplicates` (keep the first occurrence of each exact full row);
* SQL `GROUP BY` is "distinct keys in first-appearance order, one
  aggregate row per key", `ORDER BY` is a comparison sort (tie order in SQL
  is unspecified; the embedding uses stable insertion sort), `LIMIT n` is
  `List.take n`;
* SQLite `ROUND(x, 2)` rounds half away from zero (`round2sql`), numpy's
  `.round(2)` rounds half to even (`round2np`);
* SQLite division by zero evaluates to NULL, so the year-over-year growth
  columns are `Option ℚ` and a zero previous-year aggregate yields `none`;
* `sys.exit` on a missing input file is an `Except.error` carrying the
  path; the file system is a parameter mapping paths to optional contents.
-/

set_option maxRecDepth 16000

namespace RetailPipeline

/-! ### Rounding helpers -/

/-- Floor of a rational as an integer (`Int.fdiv` is floor division). -/
def qfloor (q : ℚ) : ℤ :=
  Int.fdiv q.num (q.den : ℤ)

/-- Round a rational to the nearest integer, ties to even: the semantics of
numpy `around`/`.round`, used by `Series.round` in `clean_data`. -/
def roundHalfEven (q : ℚ) : ℤ :=
  let n := qfloor q
  let r := q - (n : ℚ)
  if r < 1/2 then n
  else if 1/2 < r then n + 1
  else if 2 ∣ n then n else n + 1

/-- Round a rational to the nearest integer, ties away from zero: the
semantics of SQLite `ROUND`. -/
def roundHalfAway (q : ℚ) : ℤ :=
  if q < 0 then -(qfloor (-q + 1/2)) else qfloor (q + 1/2)

/-- numpy `.round(2)`: two decimal places, ties to even. -/
def round2np (q : ℚ) : ℚ :=
  (roundHalfEven (q * 100) : ℚ) / 100

/-- SQLite `ROUND(x, 2)`: two decimal places, ties away from zero. -/
def round2sql (q : ℚ) : ℚ :=
  (roundHalfAway (q * 100) : ℚ) / 100

/-! ### Discount bucketing (`pd.cut` in `clean_data`, step 6)

`pd.cut(df.discount, bins=[-0.01, 0.0, 0.1, 0.2, 0.3, 1.0], labels=[...])`
assigns to each value the right-closed interval it falls in, and `NaN`
(here `none`) when the value lies outside every bin. -/

/-- Index of the bucket assigned by `pd.cut` with bins
`[-0.01, 0.0, 0.1, 0.2, 0.3, 1.0]`: `none` when the discount is outside
`(-0.01, 1.0]`. -/
def discount_bucket (d : ℚ) : Option (Fin 5) :=
  if d ≤ -1/100 then none
  else if d ≤ 0 then some 0
  else if d ≤ 1/10 then some 1
  else if d ≤ 2/10 then some 2
  else if d ≤ 3/10 then some 3
  else if d ≤ 1 then some 4
  else none

/-- The label attached to each bucket index by `pd.cut`'s `labels`
argument. -/
def bucketLabel : Fin 5 → String
  | 0 => "No Discount"
  | 1 => "1-10%"
  | 2 => "11-20%"
  | 3 => "21-30%"
  | 4 => "30%+"

/-- The five labels, in bucket order. -/
def allBucketLabels : List String :=
  [bucketLabel 0, bucketLabel 1, bucketLabel 2, bucketLabel 3, bucketLabel 4]

/-- Rendering of a (possibly unassigned) bucket as text, as performed by
`astype(str)` on the categorical column in `load_to_database` (pandas
renders a missing categorical as the string `nan`). -/
def bucketStr : Option (Fin 5) → String
  | none => "nan"
  | some b => bucketLabel b

/-- Every bucket label is one of the five catalogue labels. -/
theorem bucketLabel_mem (b : Fin 5) : bucketLabel b ∈ allBucketLabels := by
  fin_cases b <;> simp [allBucketLabels]

/-- Index of the bucket assigned to a discount in [0, 1]: counts how many
bin boundaries lie strictly below the value. -/
def bucketIdx (d : ℚ) : Fin 5 :=
  if d ≤ 0 then 0
  else if d ≤ 1/10 then 1
  else if d ≤ 2/10 then 2
  else if d ≤ 3/10 then 3
  else 4

/-- On [0, 1] the bucket is always assigned, with index `bucketIdx`. -/
theorem discount_bucket_eq_idx (d : ℚ) (h₀ : 0 ≤ d) (h₁ : d ≤ 1) :
    discount_bucket d = some (bucketIdx d) := by
  unfold discount_bucket bucketIdx
  split_ifs <;> first | rfl | (exfalso; linarith)

/-- Monotonicity of `bucketIdx`. -/
theorem bucketIdx_mono {d₁ d₂ : ℚ} (h : d₁ ≤ d₂) : bucketIdx d₁ ≤ bucketIdx d₂ := by
  unfold bucketIdx
  split_ifs <;> first | decide | (exfalso; linarith)

/-- C1: for every discount value in [0, 1] the bucket derived by
`clean_data` is assigned (one of the five labels), and the assignment is
monotone in the discount: stated for any `0 ≤ d₁ ≤ d₂ ≤ 1`, both values
get a bucket, each bucket carries one of the five labels, and the bucket
index of the smaller discount is not larger. -/
theorem discount_bucket_total_monotone (d₁ d₂ : ℚ)
    (h₀ : 0 ≤ d₁) (h₁₂ : d₁ ≤ d₂) (h₁ : d₂ ≤ 1) :
    ∃ b₁ b₂ : Fin 5, discount_bucket d₁ = some b₁ ∧
      discount_bucket d₂ = some b₂ ∧ b₁ ≤ b₂ ∧
      bucketLabel b₁ ∈ allBucketLabels ∧ bucketLabel b₂ ∈ allBucketLabels :=
  ⟨bucketIdx d₁, bucketIdx d₂,
    discount_bucket_eq_idx d₁ h₀ (h₁₂.trans h₁),
    discount_bucket_eq_idx d₂ (h₀.trans h₁₂) h₁,
    bucketIdx_mono h₁₂, bucketLabel_mem _, bucketLabel_mem _⟩

/-- Witness for C1 at the concrete pair (0.05, 0.25): buckets 1 and 3. -/
theorem discount_bucket_total_monotone_witness :
    ∃ b₁ b₂ : Fin 5, discount_bucket (5/100) = some b₁ ∧
      discount_bucket (25/100) = some b₂ ∧ b₁ ≤ b₂ ∧
      bucketLabel b₁ ∈ allBucketLabels ∧ bucketLabel b₂ ∈ allBucketLabels :=
  discount_bucket_total_monotone (5/100) (25/100) (by norm_num) (by norm_num)
    (by norm_num)

/-- C10: a discount outside `(-0.01, 1.0]` gets no bucket (`pd.cut`
produces `NaN` for values outside every bin), so the "bucket always
assigned" invariant indeed needs the discount-in-[0,1] precondition. -/
theorem discount_bucket_none_outside (d : ℚ)
    (h : d ≤ -1/100 ∨ 1 < d) : discount_bucket d = none := by
  unfold discount_bucket
  split_ifs <;> first | rfl | (exfalso; rcases h with h | h <;> linarith)

/-- Witness for C10 at the concrete discount 2 (i.e. 200%). -/
theorem discount_bucket_none_outside_witness :
    discount_bucket 2 = none :=
  discount_bucket_none_outside 2 (Or.inr (by norm_num))

/-! ### Column-name normalization (`clean_data`, step 2)

The source chains `.str.strip().str.replace(' ', '_').str.replace('-', '_')
.str.lower()` over the column index. Names are modelled as lists of
Unicode code points. -/

/-- Whitespace test used by `strip` (space, tab, line feed, carriage
return). -/
def isWs (c : ℕ) : Bool :=
  decide (c = 32 ∨ c = 9 ∨ c = 10 ∨ c = 13)

/-- Python `str.strip`: drop whitespace from both ends. -/
def strip (l : List ℕ) : List ℕ :=
  (((l.dropWhile isWs).reverse.dropWhile isWs)).reverse

/-- Pointwise character replacement, as done by `str.replace` on a
single-character pattern. -/
def repCh (a b c : ℕ) : ℕ :=
  if c = a then b else c

/-- ASCII lowering of one code point (`str.lower` on the A–Z range). -/
def toLowerCh (c : ℕ) : ℕ :=
  if 65 ≤ c ∧ c ≤ 90 then c + 32 else c

/-- Normalization of one column name: strip, spaces to underscores,
hyphens to underscores, lowercase — the exact chain of `clean_data`
step 2 (code point 32 is the space, 45 the hyphen, 95 the underscore). -/
def normalizeName (l : List ℕ) : List ℕ :=
  (((strip l).map (repCh 32 95)).map (repCh 45 95)).map toLowerCh

/-- Normalization of the whole column index. -/
def normalizeColumns (cols : List (List ℕ)) : List (List ℕ) :=
  cols.map normalizeName

/-- The per-character action of `normalizeName` after stripping. -/
def normCh (c : ℕ) : ℕ :=
  toLowerCh (repCh 45 95 (repCh 32 95 c))


theorem normalizeName_eq_map (l : List ℕ) :
    normalizeName l = (strip l).map normCh := by
  simp [normalizeName, normCh, List.map_map]

/-- Idempotence of `normCh` on every code point. -/
theorem normCh_idem (c : ℕ) : normCh (normCh c) = normCh c := by
  unfold normCh toLowerCh repCh
  split_ifs <;> omega

/-- Applying `normCh` never turns a non-whitespace code point into whitespace. -/
theorem normCh_not_ws {c : ℕ} (h : isWs c = false) : isWs (normCh c) = false := by
  unfold normCh toLowerCh repCh
  simp only [isWs, decide_eq_false_iff_not] at h ⊢
  split_ifs <;> omega

/-- The head of a `dropWhile` result does not satisfy the predicate. -/
theorem head?_dropWhile_not {p : ℕ → Bool} :
    ∀ (l : List ℕ) {a : ℕ}, (l.dropWhile p).head? = some a → p a = false := by
  intro l
  induction l with
  | nil => intro a h; simp [List.dropWhile] at h
  | cons x xs ih =>
      intro a h
      by_cases hx : p x
      · rw [List.dropWhile_cons_of_pos hx] at h
        exact ih h
      · rw [List.dropWhile_cons_of_neg hx] at h
        simp at h
        subst h
        simpa using hx

/-- Because `dropWhile` removes a leading run, it preserves a present last element. -/
theorem getLast?_of_dropWhile {p : ℕ → Bool} {l : List ℕ} {a : ℕ}
    (h : (l.dropWhile p).getLast? = some a) : l.getLast? = some a := by
  obtain ⟨pre, hpre⟩ := List.dropWhile_suffix (l := l) (p := p)
  rcases hd : l.dropWhile p with _ | ⟨x, xs⟩
  · rw [hd] at h; simp at h
  · rw [hd] at h hpre
    rw [← hpre, List.getLast?_append_cons]
    exact h

/-- The head of `strip l` (if any) is not whitespace. -/
theorem strip_head_not_ws {l : List ℕ} {a : ℕ} (h : (strip l).head? = some a) :
    isWs a = false := by
  unfold strip at h
  rw [List.head?_reverse] at h
  have h2 := getLast?_of_dropWhile h
  rw [List.getLast?_reverse] at h2
  exact head?_dropWhile_not l h2

/-- The last element of `strip l` (if any) is not whitespace. -/
theorem strip_getLast_not_ws {l : List ℕ} {a : ℕ}
    (h : (strip l).getLast? = some a) : isWs a = false := by
  unfold strip at h
  rw [List.getLast?_reverse] at h
  exact head?_dropWhile_not _ h

/-- A list whose head fails the predicate is unchanged by `dropWhile`. -/
theorem dropWhile_eq_self_of_head {p : ℕ → Bool} :
    ∀ (l : List ℕ), (∀ a, l.head? = some a → p a = false) → l.dropWhile p = l := by
  intro l h
  cases l with
  | nil => rfl
  | cons x xs => exact List.dropWhile_cons_of_neg (by simp [h x rfl])

/-- Stripping a list with no whitespace at either end changes nothing. -/
theorem strip_eq_self_of_ends {l : List ℕ}
    (hh : ∀ a, l.head? = some a → isWs a = false)
    (hl : ∀ a, l.getLast? = some a → isWs a = false) : strip l = l := by
  unfold strip
  rw [dropWhile_eq_self_of_head l hh]
  rw [dropWhile_eq_self_of_head l.reverse (by
    intro a ha
    rw [List.head?_reverse] at ha
    exact hl a ha)]
  exact List.reverse_reverse l

/-- C7: column-name normalization is deterministic (it is a function) and
idempotent — normalizing the column index twice yields the same names as
normalizing it once. -/
theorem normalizeColumns_idempotent (cols : List (List ℕ)) :
    normalizeColumns (normalizeColumns cols) = normalizeColumns cols := by
  unfold normalizeColumns
  rw [List.map_map]
  apply List.map_congr_left
  intro l _
  show normalizeName (normalizeName l) = normalizeName l
  rw [normalizeName_eq_map, normalizeName_eq_map]
  have hstrip : strip ((strip l).map normCh) = (strip l).map normCh := by
    apply strip_eq_self_of_ends
    · intro a ha
      rw [List.head?_map] at ha
      obtain ⟨b, hb, rfl⟩ := Option.map_eq_some'.mp ha
      exact normCh_not_ws (strip_head_not_ws hb)
    · intro a ha
      rw [List.getLast?_map] at ha
      obtain ⟨b, hb, rfl⟩ := Option.map_eq_some'.mp ha
      exact normCh_not_ws (strip_getLast_not_ws hb)
  rw [hstrip, List.map_map]
  apply List.map_congr_left
  intro c _
  exact normCh_idem c

/-! ### Duplicate removal (`clean_data`, step 1)

`DataFrame.drop_duplicates()` keeps the first occurrence of each exact
full row and drops every later exact copy. -/

/-- Keep the first occurrence of each element, drop later exact copies:
`go seen l` keeps those elements of `l` not seen before. -/
def dropDupAux {α : Type} [DecidableEq α] (seen : List α) : List α → List α
  | [] => []
  | a :: t => if a ∈ seen then dropDupAux seen t else a :: dropDupAux (a :: seen) t

/-- Model of `DataFrame.drop_duplicates()`: keep the first occurrence of each exact
full row, drop every later exact copy, preserving order. -/
def dropDuplicates {α : Type} [DecidableEq α] (l : List α) : List α :=
  dropDupAux [] l

theorem mem_dropDupAux {α : Type} [DecidableEq α] (a : α) :
    ∀ (l seen : List α), a ∈ dropDupAux seen l ↔ a ∈ l ∧ a ∉ seen := by
  intro l
  induction l with
  | nil => intro seen; simp [dropDupAux]
  | cons x t ih =>
      intro seen
      rw [dropDupAux]
      by_cases hx : x ∈ seen
      · rw [if_pos hx, ih]
        constructor
        · rintro ⟨h1, h2⟩
          exact ⟨List.mem_cons_of_mem x h1, h2⟩
        · rintro ⟨h1, h2⟩
          rcases List.mem_cons.mp h1 with rfl | h1
          · exact absurd hx h2
          · exact ⟨h1, h2⟩
      · rw [if_neg hx]
        by_cases hax : a = x
        · subst hax
          simp [hx]
        · rw [List.mem_cons, ih]
          simp [hax, List.mem_cons]

theorem mem_dropDuplicates {α : Type} [DecidableEq α] (a : α) (l : List α) :
    a ∈ dropDuplicates l ↔ a ∈ l := by
  rw [dropDuplicates, mem_dropDupAux]
  simp

theorem dropDupAux_sublist {α : Type} [DecidableEq α] :
    ∀ (l seen : List α), (dropDupAux seen l).Sublist l := by
  intro l
  induction l with
  | nil => intro seen; simp [dropDupAux]
  | cons x t ih =>
      intro seen
      rw [dropDupAux]
      by_cases hx : x ∈ seen
      · rw [if_pos hx]
        exact (ih seen).cons x
      · rw [if_neg hx]
        exact (ih (x :: seen)).cons₂ x

theorem dropDuplicates_sublist {α : Type} [DecidableEq α] (l : List α) :
    (dropDuplicates l).Sublist l :=
  dropDupAux_sublist l []

theorem dropDupAux_nodup {α : Type} [DecidableEq α] :
    ∀ (l seen : List α), (dropDupAux seen l).Nodup := by
  intro l
  induction l with
  | nil => intro seen; simp [dropDupAux]
  | cons x t ih =>
      intro seen
      rw [dropDupAux]
      by_cases hx : x ∈ seen
      · rw [if_pos hx]; exact ih seen
      · rw [if_neg hx]
        refine List.nodup_cons.mpr ⟨?_, ih (x :: seen)⟩
        intro hmem
        exact ((mem_dropDupAux x t (x :: seen)).mp hmem).2 (List.mem_cons_self x seen)

theorem dropDuplicates_nodup {α : Type} [DecidableEq α] (l : List α) :
    (dropDuplicates l).Nodup :=
  dropDupAux_nodup l []

theorem dropDupAux_eq_self {α : Type} [DecidableEq α] :
    ∀ (l seen : List α), l.Nodup → (∀ x ∈ l, x ∉ seen) → dropDupAux seen l = l := by
  intro l
  induction l with
  | nil => intro seen _ _; rfl
  | cons x t ih =>
      intro seen hnd hdisj
      rw [dropDupAux, if_neg (hdisj x (List.mem_cons_self x t))]
      congr 1
      apply ih (x :: seen) (List.nodup_cons.mp hnd).2
      intro y hy
      rw [List.mem_cons]
      rintro (rfl | hsy)
      · exact (List.nodup_cons.mp hnd).1 hy
      · exact hdisj y (List.mem_cons_of_mem x hy) hsy

theorem dropDuplicates_eq_self_of_nodup {α : Type} [DecidableEq α]
    (l : List α) (h : l.Nodup) : dropDuplicates l = l :=
  dropDupAux_eq_self l [] h (by simp)

/-! ### Row model

One raw transaction row, restricted to the columns the embedded logic
reads. `order_year` stands for the year part of the parsed order date
(date parsing itself is outside the embedded fragment). -/

structure RawRow where
  order_id : ℕ
  product_name : String
  category : String
  sub_category : String
  state : String
  order_year : ℤ
  sales : ℚ
  profit : ℚ
  quantity : ℤ
  discount : ℚ
deriving DecidableEq

/-- A cleaned row: the raw columns plus the derived features of
`clean_data` step 6. -/
structure CleanedRow where
  order_id : ℕ
  product_name : String
  category : String
  sub_category : String
  state : String
  order_year : ℤ
  sales : ℚ
  profit : ℚ
  quantity : ℤ
  discount : ℚ
  profit_margin_pct : ℚ
  revenue_per_unit : ℚ
  is_profitable : Bool
  discount_bucket : Option (Fin 5)
deriving DecidableEq

/-- Feature engineering of `clean_data` step 6 on one row:
`np.where(sales != 0, (profit / sales * 100).round(2), 0.0)`,
`np.where(quantity != 0, (sales / quantity).round(2), 0.0)`,
`profit > 0`, and the `pd.cut` bucket. -/
def cleanRow (r : RawRow) : CleanedRow where
  order_id := r.order_id
  product_name := r.product_name
  category := r.category
  sub_category := r.sub_category
  state := r.state
  order_year := r.order_year
  sales := r.sales
  profit := r.profit
  quantity := r.quantity
  discount := r.discount
  profit_margin_pct := if r.sales ≠ 0 then round2np (r.profit / r.sales * 100) else 0
  revenue_per_unit := if r.quantity ≠ 0 then round2np (r.sales / (r.quantity : ℚ)) else 0
  is_profitable := decide (0 < r.profit)
  discount_bucket := discount_bucket r.discount

/-- Model of `clean_data`: drop exact duplicate rows, then derive the engineered
features row by row. (Column normalization and date parsing act on the
column index and the date columns, which are not part of the row model
here; they are treated separately by `normalizeColumns`.) -/
def clean_data (t : List RawRow) : List CleanedRow :=
  (dropDuplicates t).map cleanRow

/-- The summary computed by `validate_data`'s quality report (the fields
derivable from the modelled columns). -/
structure QualityReport where
  total_records : ℕ
  unique_orders : ℕ
  total_revenue : ℚ
  total_profit : ℚ
  avg_profit_margin : ℚ
  loss_count : ℕ
  loss_pct : ℚ
deriving DecidableEq

/-- Model of `validate_data`: compute and report quality statistics, then return
the table it was given (pass-through). -/
def validate_data (t : List CleanedRow) : QualityReport × List CleanedRow :=
  (⟨t.length,
    (dropDuplicates (t.map (fun c => c.order_id))).length,
    (t.map (fun c => c.sales)).sum,
    (t.map (fun c => c.profit)).sum,
    (t.map (fun c => c.profit_margin_pct)).sum / (t.length : ℚ),
    (t.filter (fun c => decide (c.profit < 0))).length,
    ((t.filter (fun c => decide (c.profit < 0))).length : ℚ) / (t.length : ℚ) * 100⟩,
   t)

/-- C5: `validate_data` returns exactly the table it was given — no row,
column or cell is added, removed or changed. -/
theorem validate_data_pass_through (t : List CleanedRow) :
    (validate_data t).2 = t :=
  rfl

/-- C8: the duplicate-removal step of `clean_data` keeps a subsequence of
the input consisting of exactly the rows that occur in the input (only
exact full-row copies are dropped, never near-duplicates), and it is
idempotent: on a table with no exact full-row duplicates it removes zero
rows. -/
theorem dropDuplicates_exact_and_idempotent (t : List RawRow) :
    (dropDuplicates t).Sublist t ∧ (∀ r : RawRow, r ∈ dropDuplicates t ↔ r ∈ t) ∧
      (t.Nodup → dropDuplicates t = t) :=
  ⟨dropDuplicates_sublist t, fun r => mem_dropDuplicates r t,
    dropDuplicates_eq_self_of_nodup t⟩

/-- A two-row table with no duplicate rows. -/
def nodupTable : List RawRow :=
  [⟨1, "pa", "ca", "sa", "tx", 2020, 10, 1, 1, 0⟩,
   ⟨2, "pb", "cb", "sb", "tx", 2020, 20, 2, 1, 0⟩]

/-- Witness for C8: on the concrete duplicate-free table, deduplication
removes zero rows. -/
theorem dropDuplicates_exact_and_idempotent_witness :
    dropDuplicates nodupTable = nodupTable :=
  (dropDuplicates_exact_and_idempotent nodupTable).2.2 (by decide)

/-- C3: for every row produced by `clean_data`, `profit_margin_pct` is 0
when sales is 0 and otherwise `profit / sales * 100` rounded to 2
decimals; `revenue_per_unit` is 0 when quantity is 0 and otherwise
`sales / quantity` rounded to 2 decimals. -/
theorem clean_data_ratio_fallbacks (t : List RawRow) (c : CleanedRow)
    (hc : c ∈ clean_data t) :
    ((c.sales = 0 → c.profit_margin_pct = 0) ∧
      (c.sales ≠ 0 → c.profit_margin_pct = round2np (c.profit / c.sales * 100))) ∧
    ((c.quantity = 0 → c.revenue_per_unit = 0) ∧
      (c.quantity ≠ 0 → c.revenue_per_unit = round2np (c.sales / (c.quantity : ℚ)))) := by
  obtain ⟨r, _, rfl⟩ := List.mem_map.mp hc
  refine ⟨⟨?_, ?_⟩, ?_, ?_⟩ <;> intro h <;> simp [cleanRow] at h ⊢ <;> simp [cleanRow, h]

/-- A raw row with zero sales and zero quantity. -/
def zeroRow : RawRow :=
  ⟨7, "pz", "cz", "sz", "tx", 2020, 0, 5, 0, 0⟩

/-- Witness for C3: on the concrete zero-sales zero-quantity row, both
ratio features fall back to 0. -/
theorem clean_data_ratio_fallbacks_witness :
    (cleanRow zeroRow).profit_margin_pct = 0 ∧
      (cleanRow zeroRow).revenue_per_unit = 0 :=
  ⟨(clean_data_ratio_fallbacks [zeroRow] (cleanRow zeroRow)
      (by with_unfolding_all decide)).1.1 (by with_unfolding_all decide),
   (clean_data_ratio_fallbacks [zeroRow] (cleanRow zeroRow)
      (by with_unfolding_all decide)).2.1 (by with_unfolding_all decide)⟩

/-! ### The `discount_impact` query (`run_analysis_queries`, query 8)

`GROUP BY discount_bucket` over the loaded table (where the categorical
bucket column has been rendered as text), with
`SUM(CASE WHEN profit < 0 THEN 1 ELSE 0 END) AS loss_count`, ordered by
the bucket text. -/

/-- One result row of `discount_impact`. -/
structure DiscountRow where
  discount_bucket : String
  transaction_count : ℕ
  total_revenue : ℚ
  total_profit : ℚ
  avg_profit_margin : ℚ
  loss_count : ℕ
deriving DecidableEq

/-- The grouping key: the bucket column as stored in the database. -/
def discountKey (c : CleanedRow) : String :=
  bucketStr c.discount_bucket

/-- The aggregate row for one bucket value. -/
def discountRowOf (t : List CleanedRow) (b : String) : DiscountRow :=
  let g := t.filter (fun c => decide (discountKey c = b))
  ⟨b, g.length,
    round2sql (g.map (fun c => c.sales)).sum,
    round2sql (g.map (fun c => c.profit)).sum,
    round2sql ((g.map (fun c => c.profit_margin_pct)).sum / (g.length : ℚ)),
    (g.filter (fun c => decide (c.profit < 0))).length⟩

/-- Query 8, `discount_impact`: one aggregate row per distinct bucket value,
ordered by the bucket text. -/
def discount_impact (t : List CleanedRow) : List DiscountRow :=
  List.insertionSort
    (fun a b : DiscountRow =>
      a.discount_bucket < b.discount_bucket ∨ a.discount_bucket = b.discount_bucket)
    ((dropDuplicates (t.map discountKey)).map (discountRowOf t))

/-- The three-row example table of the specification: (sales, profit,
quantity, discount) = (100, 20, 2, 0.0), (0, 0, 1, 0.15), (50, -10, 5,
0.25). -/
def exampleRaw : List RawRow :=
  [⟨1, "p1", "ca", "sa", "tx", 2020, 100, 20, 2, 0⟩,
   ⟨2, "p2", "ca", "sa", "tx", 2020, 0, 0, 1, 15/100⟩,
   ⟨3, "p3", "ca", "sa", "tx", 2020, 50, -10, 5, 25/100⟩]

/-- C2 fails as stated: on the example table the bucket column is not
`["No Discount", "1-10%", "21-30%"]` — a 0.15 discount falls in the
(0.1, 0.2] bin, labelled "11-20%", not in "1-10%". -/
theorem example_buckets_ne_claimed :
    (clean_data exampleRaw).map (fun c => bucketStr c.discount_bucket) ≠
      ["No Discount", "1-10%", "21-30%"] := by
  with_unfolding_all decide

/-- C2 as amended: cleaning the example table yields profit margins
[20.0, 0.0, -20.0] and buckets ["No Discount", "11-20%", "21-30%"], and
the `discount_impact` query over the cleaned rows reports a total
`loss_count` of 1 (only the third row has negative profit). -/
theorem example_pipeline_results :
    (clean_data exampleRaw).map (fun c => c.profit_margin_pct) = [20, 0, -20] ∧
    (clean_data exampleRaw).map (fun c => bucketStr c.discount_bucket) =
      ["No Discount", "11-20%", "21-30%"] ∧
    ((discount_impact (clean_data exampleRaw)).map
        (fun r => r.loss_count)).sum = 1 := by
  refine ⟨by with_unfolding_all decide, by with_unfolding_all decide,
    by with_unfolding_all decide⟩

/-! ### The `top_products` / `worst_products` queries
(`run_analysis_queries`, queries 2 and 3)

Both group by (product_name, category, sub_category), aggregate the same
sums and averages, sort by `total_profit` (descending for `top_products`,
ascending for `worst_products`) and keep 15 rows. SQL leaves the order of
equal sort keys unspecified; the embedding uses a stable insertion
sort. -/

/-- One result row of `top_products` / `worst_products`. -/
structure ProdRow where
  product_name : String
  category : String
  sub_category : String
  total_sales : ℚ
  total_profit : ℚ
  units_sold : ℤ
  avg_discount : ℚ
deriving DecidableEq

/-- The grouping key of both product queries. -/
def prodKey (c : CleanedRow) : String × String × String :=
  (c.product_name, c.category, c.sub_category)

/-- The aggregate row for one product group. -/
def prodRowOf (t : List CleanedRow) (k : String × String × String) : ProdRow :=
  let g := t.filter (fun c => decide (prodKey c = k))
  ⟨k.1, k.2.1, k.2.2,
    round2sql (g.map (fun c => c.sales)).sum,
    round2sql (g.map (fun c => c.profit)).sum,
    (g.map (fun c => c.quantity)).sum,
    round2sql ((g.map (fun c => c.discount)).sum / (g.length : ℚ))⟩

/-- All product groups, keyed in first-appearance order. -/
def productGroups (t : List CleanedRow) : List ProdRow :=
  (dropDuplicates (t.map prodKey)).map (prodRowOf t)

/-- Relation of `ORDER BY total_profit DESC`. -/
def descProfit (a b : ProdRow) : Prop :=
  b.total_profit ≤ a.total_profit

/-- Relation of `ORDER BY total_profit ASC`. -/
def ascProfit (a b : ProdRow) : Prop :=
  a.total_profit ≤ b.total_profit

instance : DecidableRel descProfit :=
  fun a b => inferInstanceAs (Decidable (b.total_profit ≤ a.total_profit))

instance : DecidableRel ascProfit :=
  fun a b => inferInstanceAs (Decidable (a.total_profit ≤ b.total_profit))

instance : IsTotal ProdRow descProfit :=
  ⟨fun a b => le_total b.total_profit a.total_profit⟩

instance : IsTrans ProdRow descProfit :=
  ⟨fun _ _ _ h1 h2 => le_trans h2 h1⟩

instance : IsTotal ProdRow ascProfit :=
  ⟨fun a b => le_total a.total_profit b.total_profit⟩

instance : IsTrans ProdRow ascProfit :=
  ⟨fun _ _ _ h1 h2 => le_trans h1 h2⟩

/-- Query 2: top 15 products by total profit. -/
def top_products (t : List CleanedRow) : List ProdRow :=
  (List.insertionSort descProfit (productGroups t)).take 15

/-- Query 3: bottom 15 products by total profit. -/
def worst_products (t : List CleanedRow) : List ProdRow :=
  (List.insertionSort ascProfit (productGroups t)).take 15

/-- Two permutations of the same list that are both sorted by a key
without duplicate key values are equal. -/
theorem eq_of_perm_of_sorted_key {α : Type} (key : α → ℚ) :
    ∀ (l₁ l₂ : List α), l₁.Perm l₂ →
      l₁.Sorted (fun a b => key b ≤ key a) →
      l₂.Sorted (fun a b => key b ≤ key a) →
      (l₁.map key).Nodup → l₁ = l₂ := by
  intro l₁
  induction l₁ with
  | nil =>
      intro l₂ hp _ _ _
      exact hp.nil_eq
  | cons a t ih =>
      intro l₂ hp hs₁ hs₂ hnd
      cases l₂ with
      | nil =>
          have := hp.length_eq
          simp at this
      | cons b t₂ =>
          have hab : a = b := by
            have ha2 : a ∈ b :: t₂ := hp.subset (List.mem_cons_self a t)
            have hb1 : b ∈ a :: t := hp.symm.subset (List.mem_cons_self b t₂)
            rcases List.mem_cons.mp ha2 with h | ha2t
            · exact h
            rcases List.mem_cons.mp hb1 with h | hb1t
            · exact h.symm
            have h1 : key a ≤ key b := List.rel_of_sorted_cons hs₂ a ha2t
            have h2 : key b ≤ key a := List.rel_of_sorted_cons hs₁ b hb1t
            exfalso
            have hmem : key b ∈ t.map key := List.mem_map_of_mem key hb1t
            rw [← le_antisymm h1 h2] at hmem
            rw [List.map_cons] at hnd
            exact (List.nodup_cons.mp hnd).1 hmem
          subst hab
          have hp' : t.Perm t₂ := (List.perm_cons a).mp hp
          rw [List.map_cons] at hnd
          rw [ih t₂ hp' hs₁.of_cons hs₂.of_cons (List.nodup_cons.mp hnd).2]

/-- No row in common between two product-result tables. -/
def disjointB (l₁ l₂ : List ProdRow) : Bool :=
  l₁.all (fun r => l₂.all (fun r2 => decide (r ≠ r2)))

/-- A table whose two product groups have the same total profit. -/
def tieTable : List CleanedRow :=
  clean_data
    [⟨1, "pa", "ca", "sa", "tx", 2020, 5, 10, 1, 0⟩,
     ⟨2, "pb", "ca", "sa", "tx", 2020, 6, 10, 1, 0⟩]

/-- C6 fails as stated: on a table with two (≤ 15) product groups that
tie on total profit, `top_products` and `worst_products` are not exact
reverses of each other — the order of equal sort keys is not reversed. -/
theorem top_worst_not_reverse_on_tie :
    (productGroups tieTable).length ≤ 15 ∧
      top_products tieTable ≠ (worst_products tieTable).reverse := by
  refine ⟨by with_unfolding_all decide, by with_unfolding_all decide⟩

/-- A table with 30 product groups with pairwise distinct profits. -/
def bigTable : List CleanedRow :=
  clean_data ((List.range 30).map
    (fun i => ⟨i, toString i, "ca", "sa", "tx", 2020, (i : ℚ), (i : ℚ), 1, 0⟩))

/-- C6 as amended: when the table has at most 15 product groups and the
aggregated total-profit values are pairwise distinct, `top_products` and
`worst_products` contain the same rows in exactly reversed order; and
with more than 15 distinct products the two 15-row limited results may be
disjoint (exhibited on a 30-product table). -/
theorem top_worst_reverse_and_disjoint :
    (∀ t : List CleanedRow, (productGroups t).length ≤ 15 →
        ((productGroups t).map (fun r => r.total_profit)).Nodup →
        top_products t = (worst_products t).reverse) ∧
    (15 < (productGroups bigTable).length ∧
      disjointB (top_products bigTable) (worst_products bigTable) = true) := by
  constructor
  · intro t hlen hnd
    unfold top_products worst_products
    rw [List.take_of_length_le (by
      rw [(List.perm_insertionSort descProfit (productGroups t)).length_eq]
      exact hlen)]
    rw [List.take_of_length_le (by
      rw [(List.perm_insertionSort ascProfit (productGroups t)).length_eq]
      exact hlen)]
    apply eq_of_perm_of_sorted_key (fun r => r.total_profit)
    · exact ((List.perm_insertionSort descProfit (productGroups t)).trans
        (List.perm_insertionSort ascProfit (productGroups t)).symm).trans
        (List.reverse_perm _).symm
    · exact List.sorted_insertionSort descProfit (productGroups t)
    · refine List.pairwise_reverse.mpr ?_
      exact (List.sorted_insertionSort ascProfit (productGroups t)).imp (fun h => h)
    · exact (((List.perm_insertionSort descProfit (productGroups t)).map
        (fun r => r.total_profit)).nodup_iff).mpr hnd
  · refine ⟨by with_unfolding_all decide, by with_unfolding_all decide⟩

/-- Witness for C6 (amended): on the concrete duplicate-free two-product
table the two queries are exact reverses. -/
theorem top_worst_reverse_witness :
    top_products (clean_data nodupTable) =
      (worst_products (clean_data nodupTable)).reverse :=
  top_worst_reverse_and_disjoint.1 (clean_data nodupTable)
    (by with_unfolding_all decide) (by with_unfolding_all decide)

/-! ### The `yoy_growth` query (`run_analysis_queries`, query 10)

A CTE aggregates per `order_year`; the outer select left-joins each year
to the previous one (`y.order_year = prev.order_year + 1`) and computes
`ROUND((y.revenue - prev.revenue) / prev.revenue * 100, 2)`. With no
matching previous year the joined columns are NULL; SQLite also evaluates
division by zero to NULL, so a previous year aggregated to 0 yields a
NULL growth as well. NULL growth values are modelled as `none`. -/

/-- One row of the `yearly` CTE. -/
structure YearRow where
  order_year : ℤ
  revenue : ℚ
  profit : ℚ
  orders : ℕ
deriving DecidableEq

/-- One result row of `yoy_growth`. -/
structure YoyRow where
  order_year : ℤ
  revenue : ℚ
  profit : ℚ
  orders : ℕ
  revenue_growth_pct : Option ℚ
  profit_growth_pct : Option ℚ
deriving DecidableEq

/-- The distinct order years, ascending (the final `ORDER BY`). -/
def yearsOf (t : List CleanedRow) : List ℤ :=
  List.insertionSort (fun a b : ℤ => a ≤ b)
    (dropDuplicates (t.map (fun c => c.order_year)))

/-- The `yearly` CTE row for one year. -/
def yearRowOf (t : List CleanedRow) (y : ℤ) : YearRow :=
  let g := t.filter (fun c => decide (c.order_year = y))
  ⟨y, round2sql (g.map (fun c => c.sales)).sum,
    round2sql (g.map (fun c => c.profit)).sum,
    (dropDuplicates (g.map (fun c => c.order_id))).length⟩

/-- The `yearly` CTE. -/
def yearly (t : List CleanedRow) : List YearRow :=
  (yearsOf t).map (yearRowOf t)

/-- The `LEFT JOIN yearly prev ON y.order_year = prev.order_year + 1`
lookup. -/
def findPrev (ys : List YearRow) (y : ℤ) : Option YearRow :=
  ys.find? (fun p => decide (p.order_year = y - 1))

/-- The outer select of `yoy_growth` for one year row. -/
def mkYoy (ys : List YearRow) (y : YearRow) : YoyRow where
  order_year := y.order_year
  revenue := y.revenue
  profit := y.profit
  orders := y.orders
  revenue_growth_pct :=
    match findPrev ys y.order_year with
    | none => none
    | some p =>
        if p.revenue = 0 then none
        else some (round2sql ((y.revenue - p.revenue) / p.revenue * 100))
  profit_growth_pct :=
    match findPrev ys y.order_year with
    | none => none
    | some p =>
        if p.profit = 0 then none
        else some (round2sql ((y.profit - p.profit) / p.profit * 100))

/-- The `yoy_growth` query. -/
def yoy_growth (t : List CleanedRow) : List YoyRow :=
  (yearly t).map (mkYoy (yearly t))

theorem yearly_years (t : List CleanedRow) :
    (yearly t).map (fun p => p.order_year) = yearsOf t := by
  unfold yearly
  rw [List.map_map]
  rw [show ((fun p : YearRow => p.order_year) ∘ yearRowOf t) = id from rfl]
  exact List.map_id _

theorem yearsOf_nodup (t : List CleanedRow) : (yearsOf t).Nodup :=
  ((List.perm_insertionSort _ _).nodup_iff).mpr
    (dropDuplicates_nodup (t.map (fun c => c.order_year)))

theorem mem_yearsOf {t : List CleanedRow} {y : ℤ} :
    y ∈ yearsOf t ↔ y ∈ t.map (fun c => c.order_year) := by
  unfold yearsOf
  rw [(List.perm_insertionSort _ _).mem_iff, mem_dropDuplicates]

/-- C4 as amended: each `yoy_growth` row carries a null growth when the
immediately preceding calendar year is absent from the data, and when a
preceding year row exists the growth equals
`(current - previous) / previous * 100` rounded to 2 decimals — unless
the previous year's aggregate is 0, in which case SQLite's
division-by-zero yields null. No division error can occur: the growth
columns are total `Option` values. -/
theorem yoy_growth_rules (t : List CleanedRow) (yr : YoyRow)
    (hyr : yr ∈ yoy_growth t) :
    ((yr.order_year - 1) ∉ t.map (fun c => c.order_year) →
        yr.revenue_growth_pct = none ∧ yr.profit_growth_pct = none) ∧
    (∀ p ∈ yearly t, p.order_year = yr.order_year - 1 →
        yr.revenue_growth_pct =
          (if p.revenue = 0 then none
           else some (round2sql ((yr.revenue - p.revenue) / p.revenue * 100))) ∧
        yr.profit_growth_pct =
          (if p.profit = 0 then none
           else some (round2sql ((yr.profit - p.profit) / p.profit * 100)))) := by
  obtain ⟨y, hy, rfl⟩ := List.mem_map.mp hyr
  rw [show (mkYoy (yearly t) y).order_year = y.order_year from rfl]
  constructor
  · intro habs
    cases hfp : findPrev (yearly t) y.order_year with
    | none => constructor <;> simp [mkYoy, hfp]
    | some p =>
        exfalso
        apply habs
        have hfp2 : (yearly t).find?
            (fun q => decide (q.order_year = y.order_year - 1)) = some p := hfp
        have hp_mem : p ∈ yearly t := List.mem_of_find?_eq_some hfp2
        have hp_eq : p.order_year = y.order_year - 1 := by
          have hpb := List.find?_some hfp2
          simpa using hpb
        rw [← hp_eq]
        have hmem : p.order_year ∈ (yearly t).map (fun q => q.order_year) :=
          List.mem_map_of_mem _ hp_mem
        rw [yearly_years] at hmem
        exact mem_yearsOf.mp hmem
  · intro p hp hpy
    have hnd : ((yearly t).map (fun q => q.order_year)).Nodup := by
      rw [yearly_years]; exact yearsOf_nodup t
    cases hfp : findPrev (yearly t) y.order_year with
    | none =>
        exfalso
        have hfp2 : (yearly t).find?
            (fun q => decide (q.order_year = y.order_year - 1)) = none := hfp
        have hnone := List.find?_eq_none.mp hfp2 p hp
        simp [hpy] at hnone
    | some q =>
        have hfp2 : (yearly t).find?
            (fun q => decide (q.order_year = y.order_year - 1)) = some q := hfp
        have hq_mem : q ∈ yearly t := List.mem_of_find?_eq_some hfp2
        have hq_eq : q.order_year = y.order_year - 1 := by
          have hqb := List.find?_some hfp2
          simpa using hqb
        have hqp : q = p :=
          List.inj_on_of_nodup_map hnd hq_mem hp (by rw [hq_eq, hpy])
        subst hqp
        constructor <;> simp [mkYoy, hfp]

/-- A table whose 2019 slice aggregates to zero revenue and profit,
followed by a 2020 slice. -/
def yoyCexTable : List CleanedRow :=
  clean_data
    [⟨1, "pa", "ca", "sa", "tx", 2019, 0, 0, 1, 0⟩,
     ⟨2, "pb", "ca", "sa", "tx", 2020, 100, 10, 1, 0⟩]

/-- The `yoy_growth` row for 2020 over `yoyCexTable`. -/
def yoyCexRow : YoyRow :=
  ⟨2020, 100, 10, 1, none, none⟩

/-- C4 fails as stated: it is not true that for every table, every
`yoy_growth` row whose immediately preceding year is present in the data
carries the rounded growth formula value — when the preceding year's
revenue aggregate is 0, the code yields a null growth instead (SQLite
division by zero), exhibited on `yoyCexTable`. -/
theorem yoy_growth_formula_cex :
    ¬ (∀ (t : List CleanedRow) (yr : YoyRow), yr ∈ yoy_growth t →
        (yr.order_year - 1) ∈ t.map (fun c => c.order_year) →
        ∃ p ∈ yearly t, p.order_year = yr.order_year - 1 ∧
          yr.revenue_growth_pct =
            some (round2sql ((yr.revenue - p.revenue) / p.revenue * 100))) := by
  intro h
  exact absurd
    (h yoyCexTable yoyCexRow (by with_unfolding_all decide)
      (by with_unfolding_all decide))
    (by with_unfolding_all decide)

/-- A table with consecutive years 2019 and 2020 and nonzero aggregates. -/
def yoyWitnessTable : List CleanedRow :=
  clean_data
    [⟨1, "pa", "ca", "sa", "tx", 2019, 100, 10, 1, 0⟩,
     ⟨2, "pb", "ca", "sa", "tx", 2020, 150, 20, 1, 0⟩]

/-- The `yoy_growth` row for 2020 over `yoyWitnessTable`: +50% revenue,
+100% profit. -/
def yoyWitnessRow : YoyRow :=
  ⟨2020, 150, 20, 1, some 50, some 100⟩

/-- The `yearly` row for 2019 over `yoyWitnessTable`. -/
def yoyWitnessPrev : YearRow :=
  ⟨2019, 100, 10, 1⟩

/-- Witness for C4 (amended) on the concrete two-year table. -/
theorem yoy_growth_rules_witness :
    yoyWitnessRow.revenue_growth_pct =
      (if yoyWitnessPrev.revenue = 0 then none
       else some (round2sql
         ((yoyWitnessRow.revenue - yoyWitnessPrev.revenue) /
           yoyWitnessPrev.revenue * 100))) ∧
    yoyWitnessRow.profit_growth_pct =
      (if yoyWitnessPrev.profit = 0 then none
       else some (round2sql
         ((yoyWitnessRow.profit - yoyWitnessPrev.profit) /
           yoyWitnessPrev.profit * 100))) :=
  (yoy_growth_rules yoyWitnessTable yoyWitnessRow
      (by with_unfolding_all decide)).2
    yoyWitnessPrev (by with_unfolding_all decide) (by with_unfolding_all decide)

/-! ### Ingestion (`extract_data`)

On a missing path the source prints the path and calls `sys.exit(1)`,
aborting the run before any processing. The file system is modelled as a
map from paths to optional raw tables; termination-with-error is the
`Except.error` result carrying the path. -/

/-- The input-error class of the pipeline. -/
inductive ExtractError where
  | fileNotFound (path : String)
deriving DecidableEq

/-- Model of `extract_data`: load the raw table at `path`, aborting with a
file-not-found error naming the path when it does not exist. -/
def extract_data (fs : String → Option (List RawRow)) (path : String) :
    Except ExtractError (List RawRow) :=
  match fs path with
  | none => Except.error (ExtractError.fileNotFound path)
  | some rows => Except.ok rows

/-- C9: for every file system and every path that does not exist,
`extract_data` fails with the file-not-found error reporting that path,
and no table is produced (no partial load). -/
theorem extract_data_missing_file (fs : String → Option (List RawRow))
    (path : String) (h : fs path = none) :
    extract_data fs path = Except.error (ExtractError.fileNotFound path) ∧
      ∀ rows : List RawRow, extract_data fs path ≠ Except.ok rows := by
  unfold extract_data
  rw [h]
  exact ⟨rfl, fun rows hcontra => by simp at hcontra⟩

/-- A file system with no files at all. -/
def emptyFs : String → Option (List RawRow) :=
  fun _ => none

/-- A concrete path missing from `emptyFs`. -/
def missingPath : String :=
  "archive/superstore.csv"

/-- Witness for C9 at the concrete empty file system. -/
theorem extract_data_missing_file_witness :
    extract_data emptyFs missingPath =
        Except.error (ExtractError.fileNotFound missingPath) ∧
      ∀ rows : List RawRow, extract_data emptyFs missingPath ≠ Except.ok rows :=
  extract_data_missing_file emptyFs missingPath rfl

end RetailPipeline
